import Mathlib

/-!
Verification of the MadBet escrowed betting ledger.

Shallow embedding of the betting-logic and storage code of the repository
(src/bot.py, src/osmjs_betting_engine.py, src/web_app.py) in Lean 4.

Modelling conventions:
* Decimal money amounts become exact rationals.  The source routes all
  fee and payout arithmetic through Python Decimal (28 significant digits);
  the embedding treats this as exact rational arithmetic.  The one place
  the source converts to a fixed 6-fractional-digit wire string is modelled
  by the rounding function round6 below.
* The JSON bets document `{ bets: { key: bet }, bet_id_counter: n }`
  becomes the structure BetsStore; the string dict keys become naturals
  (the source always builds keys with str and parses them back, so the
  round trip is the identity on naturals).
* External I/O (OsmoJS transfer service, wallet file) is modelled by
  oracle parameters: the response the service returns, and a wallet
  lookup function.  None is an unavailable service or a missing wallet.
* Each Discord command handler is embedded as a pure function from the
  stored state and the oracle inputs to the new stored state, the list of
  multisend transfer calls dispatched, and an outcome mirroring the
  handler return paths.  Logging and message rendering are dropped.
-/

namespace MadBet

/-- Storage capacity of the circular buffer, bot.py MAX_BETS = 100. -/
def MAX_BETS : Nat := 100

/-- bot.py get_bet_storage_key (and the identical
BettingDataManager.get_bet_storage_key in web_app.py):
`storage_slot = bet_id % MAX_BETS; if storage_slot == 0: storage_slot = MAX_BETS`. -/
def get_bet_storage_key (bet_id : Nat) : Nat :=
  let storage_slot := bet_id % MAX_BETS
  if storage_slot = 0 then MAX_BETS else storage_slot

/-- One participant entry of a bet, the bet_record dict built in
osmjs_betting_engine.place_bet_with_escrow.  Transaction metadata other
than the hash (height, gas_used, fee_paid, timestamp, escrow_address)
is dropped: no claim reads it. -/
structure Participant where
  user_id : Nat
  username : String
  amount : ℚ
  option : Nat
  token : String
  tx_hash : String
deriving Repr, DecidableEq

/-- One winner entry of the payout list built by calculate_payouts.
payout_str is the 6-fractional-digit wire rendering of the payout,
modelled as the rounded rational. -/
structure WinnerPayout where
  user_id : Nat
  username : String
  original_bet : ℚ
  payout : ℚ
  payout_str : ℚ
  profit : ℚ
  token : String
deriving Repr, DecidableEq

/-- A payout recorded as successful after a multisend. -/
structure Payout where
  user_id : Nat
  username : String
  amount : ℚ
  token : String
  tx_hash : String
  address : String
deriving Repr, DecidableEq

/-- A payout or refund that failed during preparation or dispatch. -/
structure FailedPayout where
  user_id : Nat
  username : String
  error : String
deriving Repr, DecidableEq

/-- Result dict of osmjs_betting_engine.calculate_payouts, one constructor
per return statement.  The `success: False` returns of the source arise
only from participants that are not dicts or lack user_id, and from
exceptions; the typed embedding excludes both, so no failure constructor
is needed. -/
inductive PayoutResult where
  | noParticipants : PayoutResult
  | noWinners (total_pool : ℚ) (bot_fee : ℚ) (bot_fee_percentage : ℚ) (token : String) : PayoutResult
  | winnersResult (total_pool : ℚ) (bot_fee : ℚ) (bot_fee_percentage : ℚ)
      (payout_pool : ℚ) (winners : List WinnerPayout) (token : String) : PayoutResult
deriving Repr, DecidableEq

/-- Result of distribute_payouts_multisend as stored into the bet record. -/
structure DistributionResult where
  success : Bool
  error : String
  successful_payouts : List Payout
  failed_payouts : List FailedPayout
  tx_hash : String
deriving Repr, DecidableEq

/-- Result of distribute_refunds_multisend. -/
structure RefundsResult where
  success : Bool
  error : String
  successful_refunds : List Payout
  failed_refunds : List FailedPayout
  tx_hash : String
deriving Repr, DecidableEq

/-- A market record: the bet dict created by the makebet handler, with the
fields later mutated by the bet, endbet and cancel_bet handlers as options
(a missing JSON key reads as None or False through dict.get, which the
embedding renders as none or false).  creator is the parsed
`int(bet['creator'])`: none stands for a creator field that is falsy or
fails to parse, which the handlers map to the sentinel id 0. -/
structure Market where
  id : Nat
  question : String
  options : List String
  creator : Option Nat
  participants : List Participant
  is_active : Bool
  total_pool : ℚ
  bet_amount : ℚ
  bet_token : String
  created_at : String
  lock_time : String
  cancelled : Bool
  cancelled_at : Option String
  cancelled_by : Option String
  winning_option : Option Nat
  ended_at : Option String
  ended_by : Option String
  payout_data : Option PayoutResult
  distribution_result : Option DistributionResult
  refund_results : Option RefundsResult
deriving Repr, DecidableEq

/-- The persisted bets document: bets dict (keyed by the stringified
numbers the source uses, here naturals) plus the id-allocation counter. -/
structure BetsStore where
  bets : Nat → Option Market
  counter : Nat

/-- The default document load_bets_data falls back to when the file is
absent: no bets, counter 1. -/
def initStore : BetsStore where
  bets := fun _ => none
  counter := 1

/-- bot.py get_bet_by_id: `current_bets.get(str(bet_id))` — a lookup by
the raw id string, with no verification of the stored record id. -/
def get_bet_by_id (s : BetsStore) (bet_id : Nat) : Option Market :=
  s.bets bet_id

/-- web_app.py BettingDataManager.get_bet_by_id: looks up the storage
slot of the requested id and, on a hit, recomputes total_pool via
calculate_total_pool (= len(participants) * bet_amount).  The lock_info
display annotation the source also attaches is presentation data and is
dropped.  No verification of the stored record id happens here either. -/
def webapp_get_bet_by_id (s : BetsStore) (bet_id : Nat) : Option Market :=
  match s.bets (get_bet_storage_key bet_id) with
  | none => none
  | some bet => some { bet with total_pool := bet.bet_amount * bet.participants.length }

/-- bot.py save_bet: read-modify-write of the whole document; the target
slot is overwritten with the record, the counter is written back
unchanged. -/
def save_bet (s : BetsStore) (bet_data : Market) : BetsStore where
  bets := fun k => if k = get_bet_storage_key bet_data.id then some bet_data else s.bets k
  counter := s.counter

/-- bot.py update_bet_data: membership is checked against the raw id key
(`if str(bet_id) not in current_bets: return False`) but the mutation is
applied to the storage-slot key (`current_bets[storage_key].update(updates)`);
when the raw key is present but the slot key is absent the source raises
KeyError, lands in the except handler and returns False with no write.
The updates dict is modelled as the function it applies to the record. -/
def update_bet_data (s : BetsStore) (bet_id : Nat) (updates : Market → Market) :
    BetsStore × Bool :=
  match s.bets bet_id with
  | none => (s, false)
  | some _ =>
    match s.bets (get_bet_storage_key bet_id) with
    | none => (s, false)
    | some occupant =>
      ({ bets := fun k =>
            if k = get_bet_storage_key bet_id then some (updates occupant) else s.bets k,
         counter := s.counter }, true)

/-- Availability of the persistence medium.  avail: file reads and writes
succeed.  down: the medium is unavailable, so the open call in the try
block raises and the except handler runs; the stored bytes stay as they
were. -/
inductive Medium where
  | avail (st : BetsStore) : Medium
  | down (st : BetsStore) : Medium

/-- The document held by the medium. -/
def Medium.store : Medium → BetsStore
  | .avail st => st
  | .down st => st

/-- bot.py get_next_bet_id: on an available medium it returns the current
counter and persists counter + 1; when the medium is down the except
handler logs and returns the literal 1, leaving the document unchanged. -/
def get_next_bet_id : Medium → Medium × Nat
  | .avail st => (.avail { st with counter := st.counter + 1 }, st.counter)
  | .down st => (.down st, 1)

/-- The bet dict literal the makebet handler builds (bot.py lines
1145-1157): empty participants, active, zero pool, no settlement or
cancellation fields yet. -/
def mkOpenMarket (bet_id : Nat) (question : String) (options : List String)
    (creator : Option Nat) (amount : ℚ) (token : String)
    (created_at lock_time : String) : Market where
  id := bet_id
  question := question
  options := options
  creator := creator
  participants := []
  is_active := true
  total_pool := 0
  bet_amount := amount
  bet_token := token
  created_at := created_at
  lock_time := lock_time
  cancelled := false
  cancelled_at := none
  cancelled_by := none
  winning_option := none
  ended_at := none
  ended_by := none
  payout_data := none
  distribution_result := none
  refund_results := none

/-- The creation step of the makebet handler (bot.py lines 1141-1160):
allocate the id, build the bet dict, save it to its slot.  The input
validation preceding this point returns without touching the store and is
omitted. -/
def makebet (s : BetsStore) (uid : Nat) (question : String) (options : List String)
    (amount : ℚ) (token : String) (created_at lock_time : String) : BetsStore × Nat :=
  let r := get_next_bet_id (.avail s)
  let bet := mkOpenMarket r.2 question options (some uid) amount token created_at lock_time
  (save_bet r.1.store bet, r.2)

/-- A market with id 101 sitting in slot 1, as produced once the buffer
wraps around. -/
def market101 : Market :=
  mkOpenMarket 101 "q101" ["A", "B"] (some 42) 1 "osmo" "t0" "indefinite"

/-- A store whose slot 1 is occupied by market 101. -/
def exStoreC4 : BetsStore where
  bets := fun k => if k = 1 then some market101 else none
  counter := 102

/-- BotConfig.BOT_FEE_PERCENTAGE from config_template.py: the bot takes
5 percent of the total pool. -/
def fee_percentage : ℚ := 5

/-- The fixed 6-fractional-digit wire rendering of an amount, the
f-string formatting with .6f the engine applies before handing amounts to
the transfer service; modelled as rounding to the nearest multiple of
10^-6.  The half-tie convention of the binary float formatting differs
from round at exact ties only, which no stated bound depends on. -/
def round6 (x : ℚ) : ℚ := (round (x * 1000000) : ℤ) / 1000000

/-- osmjs_betting_engine.calculate_payouts.  The source first filters out
participants that are not dicts or lack a user_id; every participant of
the typed embedding passes that filter, so valid_participants equals
participants and the `No valid participants found` failure return is
unreachable.  Decimal arithmetic (28 significant digits in the source)
is modelled as exact rational arithmetic. -/
def calculate_payouts (bet_data : Market) (winning_option_index : Nat) : PayoutResult :=
  if bet_data.participants.isEmpty then .noParticipants
  else
    let winners := bet_data.participants.filter (fun p => p.option == winning_option_index)
    let total_pool := bet_data.bet_amount * bet_data.participants.length
    if winners.isEmpty then
      .noWinners total_pool (total_pool * fee_percentage / 100) fee_percentage bet_data.bet_token
    else
      let bot_fee := total_pool * fee_percentage / 100
      let payout_pool := total_pool - bot_fee
      let payout_per_winner := payout_pool / winners.length
      let payouts := winners.map (fun w =>
        { user_id := w.user_id
          username := w.username
          original_bet := bet_data.bet_amount
          payout := payout_per_winner
          payout_str := round6 payout_per_winner
          profit := payout_per_winner - bet_data.bet_amount
          token := bet_data.bet_token })
      .winnersResult total_pool bot_fee fee_percentage payout_pool payouts bet_data.bet_token

/-- A wallet record of the user_wallets document. -/
structure Wallet where
  address : String
  mnemonic : String
deriving Repr, DecidableEq

/-- Response of the OsmoJS service to a send or multisend request; the
service answers with a success flag, a transaction hash on success and an
error message on failure.  An unavailable service (no response at all) is
modelled as none at the call sites. -/
structure OsmjsResult where
  success : Bool
  tx_hash : String
  error : String
deriving Repr, DecidableEq

/-- One recipient tuple of a multisend request. -/
structure Recipient where
  address : String
  amount : ℚ
  token : String
  user_id : Nat
  username : String
deriving Repr, DecidableEq

/-- One multisend request dispatched to the OsmoJS service; the
instrumentation the embedding returns so that theorems can count the
transfer calls a handler makes. -/
structure MultisendCall where
  recipients : List Recipient
  memo : String
deriving Repr, DecidableEq

/-- The recipients list distribute_payouts_multisend builds: one entry
per winner whose wallet resolves, carrying the precise 6-digit payout
string. -/
def payout_recipients (winners : List WinnerPayout)
    (wallet_lookup : Nat → Option Wallet) : List Recipient :=
  winners.filterMap (fun w =>
    match wallet_lookup w.user_id with
    | none => none
    | some wa => some { address := wa.address, amount := w.payout_str, token := w.token,
                        user_id := w.user_id, username := w.username })

/-- The failed_preparations list: winners whose wallet does not resolve. -/
def payout_failed_preparations (winners : List WinnerPayout)
    (wallet_lookup : Nat → Option Wallet) : List FailedPayout :=
  winners.filterMap (fun w =>
    match wallet_lookup w.user_id with
    | some _ => none
    | none => some { user_id := w.user_id, username := w.username,
                     error := "Winners wallet not found" })

/-- osmjs_betting_engine.distribute_payouts_multisend.  Returns the
result dict and the list of multisend requests actually dispatched (empty
when the function exits before reaching the service).  The summary entry
the source appends to failed_payouts after a failed multisend carries no
user, modelled with user_id 0. -/
def distribute_payouts_multisend (payout_data : PayoutResult)
    (wallet_lookup : Nat → Option Wallet) (osmjs : Option OsmjsResult) :
    DistributionResult × List MultisendCall :=
  match payout_data with
  | .noParticipants =>
      ({ success := false, error := "No valid payouts to distribute",
         successful_payouts := [], failed_payouts := [], tx_hash := "" }, [])
  | .noWinners _ _ _ _ =>
      ({ success := false, error := "No valid payouts to distribute",
         successful_payouts := [], failed_payouts := [], tx_hash := "" }, [])
  | .winnersResult _ _ _ _ winners _ =>
    if winners.isEmpty then
      ({ success := false, error := "No winners to pay out",
         successful_payouts := [], failed_payouts := [], tx_hash := "" }, [])
    else
      let recipients := payout_recipients winners wallet_lookup
      let failed_preparations := payout_failed_preparations winners wallet_lookup
      if recipients.isEmpty then
        ({ success := false, error := "No valid recipients prepared for multisend",
           successful_payouts := [], failed_payouts := failed_preparations,
           tx_hash := "" }, [])
      else
        let call : MultisendCall :=
          { recipients := recipients,
            memo := "Betting Payouts - " ++ toString recipients.length ++ " winners" }
        match osmjs with
        | none =>
          ({ success := false, error := "Multisend failed: OsmoJS service unavailable",
             successful_payouts := [],
             failed_payouts := failed_preparations
               ++ [{ user_id := 0, username := "",
                     error := "Multisend transaction failed" }],
             tx_hash := "" }, [call])
        | some r =>
          if r.success then
            ({ success := true, error := "",
               successful_payouts := recipients.map (fun rc =>
                 { user_id := rc.user_id, username := rc.username, amount := rc.amount,
                   token := rc.token, tx_hash := r.tx_hash, address := rc.address }),
               failed_payouts := failed_preparations, tx_hash := r.tx_hash }, [call])
          else
            ({ success := false, error := "Multisend failed: " ++ r.error,
               successful_payouts := [],
               failed_payouts := failed_preparations
                 ++ [{ user_id := 0, username := "",
                       error := "Multisend transaction failed" }],
               tx_hash := "" }, [call])

/-- The refund recipients list of distribute_refunds_multisend: one entry
per participant whose wallet resolves, refunding the amount the
participant actually wagered in its own token, rendered to 6 fractional
digits. -/
def refund_recipients (participants : List Participant)
    (wallet_lookup : Nat → Option Wallet) : List Recipient :=
  participants.filterMap (fun p =>
    match wallet_lookup p.user_id with
    | none => none
    | some wa => some { address := wa.address, amount := round6 p.amount, token := p.token,
                        user_id := p.user_id, username := p.username })

/-- Participants whose wallet does not resolve during refund preparation. -/
def refund_failed_preparations (participants : List Participant)
    (wallet_lookup : Nat → Option Wallet) : List FailedPayout :=
  participants.filterMap (fun p =>
    match wallet_lookup p.user_id with
    | some _ => none
    | none => some { user_id := p.user_id, username := p.username,
                     error := "Participants wallet not found" })

/-- osmjs_betting_engine.distribute_refunds_multisend, instrumented like
the payout variant. -/
def distribute_refunds_multisend (bet_data : Market)
    (wallet_lookup : Nat → Option Wallet) (osmjs : Option OsmjsResult) :
    RefundsResult × List MultisendCall :=
  if bet_data.participants.isEmpty then
    ({ success := false, error := "No participants to refund",
       successful_refunds := [], failed_refunds := [], tx_hash := "" }, [])
  else
    let recipients := refund_recipients bet_data.participants wallet_lookup
    let failed_preparations := refund_failed_preparations bet_data.participants wallet_lookup
    if recipients.isEmpty then
      ({ success := false, error := "No valid recipients prepared for refund multisend",
         successful_refunds := [], failed_refunds := failed_preparations,
         tx_hash := "" }, [])
    else
      let call : MultisendCall :=
        { recipients := recipients,
          memo := "Bet Cancellation Refunds - " ++ toString recipients.length
            ++ " participants" }
      match osmjs with
      | none =>
        ({ success := false, error := "Refund multisend failed: OsmoJS service unavailable",
           successful_refunds := [],
           failed_refunds := failed_preparations
             ++ [{ user_id := 0, username := "",
                   error := "Refund multisend transaction failed" }],
           tx_hash := "" }, [call])
      | some r =>
        if r.success then
          ({ success := true, error := "",
             successful_refunds := recipients.map (fun rc =>
               { user_id := rc.user_id, username := rc.username, amount := rc.amount,
                 token := rc.token, tx_hash := r.tx_hash, address := rc.address }),
             failed_refunds := failed_preparations, tx_hash := r.tx_hash }, [call])
        else
          ({ success := false, error := "Refund multisend failed: " ++ r.error,
             successful_refunds := [],
             failed_refunds := failed_preparations
               ++ [{ user_id := 0, username := "",
                     error := "Refund multisend transaction failed" }],
             tx_hash := "" }, [call])

/-- A participant wagering 1 osmo on option A (index 0). -/
def partAlice : Participant :=
  { user_id := 1, username := "alice", amount := 1, option := 0, token := "osmo",
    tx_hash := "hA" }

/-- A participant wagering 1 osmo on option B (index 1). -/
def partBob : Participant :=
  { user_id := 2, username := "bob", amount := 1, option := 1, token := "osmo",
    tx_hash := "hB" }

/-- A participant wagering 1 osmo on option A (index 0). -/
def partCarol : Participant :=
  { user_id := 3, username := "carol", amount := 1, option := 0, token := "osmo",
    tx_hash := "hC" }

/-- The scenario of the spec: wager 1, three participants on A, B, A. -/
def exThree : Market :=
  { mkOpenMarket 5 "ex question" ["A", "B"] (some 9) 1 "osmo" "t0" "indefinite" with
    participants := [partAlice, partBob, partCarol], total_pool := 3 }

/-- Expected payout record for the first winner: 1.425 = 57/40 each. -/
def wpAlice : WinnerPayout :=
  { user_id := 1, username := "alice", original_bet := 1, payout := 57 / 40,
    payout_str := 57 / 40, profit := 17 / 40, token := "osmo" }

/-- Expected payout record for the second winner. -/
def wpCarol : WinnerPayout :=
  { user_id := 3, username := "carol", original_bet := 1, payout := 57 / 40,
    payout_str := 57 / 40, profit := 17 / 40, token := "osmo" }

/-- Result of osmjs_betting_engine.place_bet_with_escrow. -/
inductive PlaceBetResult where
  | failure (error : String) : PlaceBetResult
  | ok (bet_record : Participant) (tx : OsmjsResult) : PlaceBetResult
deriving Repr, DecidableEq

/-- osmjs_betting_engine.place_bet_with_escrow.  The amount and balance
validation performs network balance reads; its verdict is the
validation_ok oracle.  The send request to the OsmoJS service is the
send_result oracle (none = service unavailable or all retries failed).
The source error strings vary with the validation failure; one modelled
message per failure class suffices for the claims. -/
def place_bet_with_escrow (user_id : Nat) (username : String) (amount : ℚ)
    (option_index : Nat) (token : String) (wallet : Option Wallet)
    (validation_ok : Bool) (send_result : Option OsmjsResult) : PlaceBetResult :=
  if validation_ok = false then .failure "Invalid bet amount or balance"
  else
    match wallet with
    | none => .failure "No wallet found"
    | some _ =>
      match send_result with
      | none => .failure "Transfer failed: OsmoJS service unavailable"
      | some r =>
        if r.success then
          .ok { user_id := user_id, username := username, amount := amount,
                option := option_index, token := token, tx_hash := r.tx_hash } r
        else .failure ("Transfer failed: " ++ r.error)

/-- Outcome of the bet handler, one constructor per return path. -/
inductive BetOutcome where
  | notFound : BetOutcome
  | lockedOut : BetOutcome
  | betCancelled : BetOutcome
  | betEnded : BetOutcome
  | invalidOption : BetOutcome
  | alreadyBet : BetOutcome
  | notFoundRace : BetOutcome
  | cancelledRace : BetOutcome
  | endedRace : BetOutcome
  | alreadyBetSecond : BetOutcome
  | noWallet : BetOutcome
  | transferFailed (error : String) : BetOutcome
  | unconfirmed (tx_hash : String) : BetOutcome
  | duplicatePrevented (tx_hash : String) : BetOutcome
  | placed (tx_hash : String) : BetOutcome
deriving Repr, DecidableEq

/-- The atomic final block of the bet handler (bot.py lines 1427-1463):
re-read the bet, run the final duplicate check against that fresh state,
and only when the user is still absent append the record and save.
There is no await between the fresh read and the save, so relative to
the event loop the block runs atomically on the then-current store.
Returns the write performed (none when nothing is saved) and the
outcome; a vanished bet leaves the successful transfer dangling with no
write, exactly as the source skips the whole if-block then. -/
def bet_finalize (s : BetsStore) (bet_id : Nat) (uid : Nat) (record : Participant)
    (tx_hash : String) : Option Market × BetOutcome :=
  match get_bet_by_id s bet_id with
  | none => (none, .unconfirmed tx_hash)
  | some fresh =>
    if fresh.participants.any (fun p => p.user_id == uid) then
      (none, .duplicatePrevented tx_hash)
    else
      (some { fresh with
                participants := fresh.participants ++ [record],
                total_pool := fresh.total_pool + record.amount }, .placed tx_hash)

/-- The bet handler (bot.py lines 1174-1497) with its three storage reads
explicit: s1 is the store at the initial read (line 1190), s2 at the
post-defer re-read (line 1265), s3 at the fresh read after the transfer
(line 1430); concurrent handlers may change the store between the reads.
locked is the verdict of config.is_bet_locked, whose implementation
lives outside this repository (the shipped template stub returns False);
it enters as an oracle.  Returns the single write the handler performs,
if any, and the outcome. -/
def betCmdAt (s1 s2 s3 : BetsStore) (uid : Nat) (uname : String) (bet_id : Nat)
    (option : Int) (locked : Bool) (wallet : Option Wallet) (validation_ok : Bool)
    (send_result : Option OsmjsResult) : Option Market × BetOutcome :=
  match get_bet_by_id s1 bet_id with
  | none => (none, .notFound)
  | some bet_data =>
    if locked then (none, .lockedOut)
    else if bet_data.is_active = false then
      (none, if bet_data.cancelled then .betCancelled else .betEnded)
    else if option - 1 < 0 ∨ (bet_data.options.length : Int) ≤ option - 1 then
      (none, .invalidOption)
    else if bet_data.participants.any (fun p => p.user_id == uid) then
      (none, .alreadyBet)
    else
      match get_bet_by_id s2 bet_id with
      | none => (none, .notFoundRace)
      | some current =>
        if current.is_active = false then
          (none, if current.cancelled then .cancelledRace else .endedRace)
        else if current.participants.any (fun p => p.user_id == uid) then
          (none, .alreadyBetSecond)
        else
          match wallet with
          | none => (none, .noWallet)
          | some _ =>
            match place_bet_with_escrow uid uname current.bet_amount (option - 1).toNat
                current.bet_token wallet validation_ok send_result with
            | .failure e => (none, .transferFailed e)
            | .ok record tx => bet_finalize s3 bet_id uid record tx.tx_hash

/-- The bet handler run without interleaving: all three reads observe the
same store; the write it produces, if any, is applied to that store. -/
def betCmd (s : BetsStore) (uid : Nat) (uname : String) (bet_id : Nat) (option : Int)
    (locked : Bool) (wallet : Option Wallet) (validation_ok : Bool)
    (send_result : Option OsmjsResult) : BetsStore × BetOutcome :=
  match betCmdAt s s s uid uname bet_id option locked wallet validation_ok send_result with
  | (none, out) => (s, out)
  | (some m, out) => (save_bet s m, out)

/-- Outcome of the endbet handler, one constructor per return path. -/
inductive EndbetOutcome where
  | notFound : EndbetOutcome
  | permissionDenied : EndbetOutcome
  | alreadyCancelled : EndbetOutcome
  | alreadyEnded : EndbetOutcome
  | invalidOption : EndbetOutcome
  | closedNoParticipants : EndbetOutcome
  | endedNoWinners (total_pool : ℚ) (bot_fee : ℚ) : EndbetOutcome
  | distributionFailed (error : String) : EndbetOutcome
  | completed (successful : Nat) (failed : Nat) (tx_hash : String) : EndbetOutcome
deriving Repr, DecidableEq

/-- The endbet handler (bot.py lines 1792-2013 up to the persisted state
change; message rendering dropped).  Storage writes run on an available
medium; the multisend response is the osmjs oracle; wallet_lookup is the
wallet document.  Returns the new store, the multisend calls dispatched
and the outcome. -/
def endbet (s : BetsStore) (uid : Nat) (uname : String) (admin : Bool) (bet_id : Nat)
    (winning_option : Int) (wallet_lookup : Nat → Option Wallet)
    (osmjs : Option OsmjsResult) (now : String) :
    BetsStore × List MultisendCall × EndbetOutcome :=
  match get_bet_by_id s bet_id with
  | none => (s, [], .notFound)
  | some bet =>
    let bet_creator_id := bet.creator.getD 0
    if bet_creator_id ≠ uid ∧ ¬ admin then (s, [], .permissionDenied)
    else if bet.is_active = false then
      (s, [], if bet.cancelled then .alreadyCancelled else .alreadyEnded)
    else if winning_option - 1 < 0 ∨ (bet.options.length : Int) ≤ winning_option - 1 then
      (s, [], .invalidOption)
    else
      let winning_index := (winning_option - 1).toNat
      let ended_by_str := if admin ∧ bet_creator_id ≠ uid
        then "Admin: " ++ uname else "Creator: " ++ uname
      let pd := calculate_payouts bet winning_index
      match pd with
      | .noParticipants =>
        let bet2 := { bet with
                        is_active := false, winning_option := some winning_index,
                        ended_at := some now, payout_data := some pd }
        (save_bet s bet2, [], .closedNoParticipants)
      | .noWinners tp fee _ _ =>
        let bet2 := { bet with
                        is_active := false, winning_option := some winning_index,
                        ended_at := some now, ended_by := some ended_by_str,
                        payout_data := some pd }
        (save_bet s bet2, [], .endedNoWinners tp fee)
      | .winnersResult _ _ _ _ _ _ =>
        let dr := distribute_payouts_multisend pd wallet_lookup osmjs
        if dr.1.success = false ∧ dr.1.successful_payouts.length = 0 then
          (s, dr.2, .distributionFailed dr.1.error)
        else
          let bet2 := { bet with
                          is_active := false,
                          winning_option := some winning_index,
                          ended_at := some now, ended_by := some ended_by_str,
                          payout_data := some pd, distribution_result := some dr.1 }
          (save_bet s bet2, dr.2,
            .completed dr.1.successful_payouts.length dr.1.failed_payouts.length
              dr.1.tx_hash)

/-- Outcome of the cancel_bet handler, one constructor per return path. -/
inductive CancelOutcome where
  | notFound : CancelOutcome
  | permissionDenied : CancelOutcome
  | alreadyCancelled : CancelOutcome
  | alreadyEnded : CancelOutcome
  | cancelledNoParticipants : CancelOutcome
  | refundFailed (error : String) : CancelOutcome
  | cancelledWithRefunds (successful : Nat) (failed : Nat) : CancelOutcome
deriving Repr, DecidableEq

/-- The cancel_bet handler (bot.py lines 2274-2459 up to the persisted
state change).  In the refunds path the source writes cancelled_by as
the Admin-prefixed name unconditionally (line 2452), unlike the
no-participants path which distinguishes creator and admin. -/
def cancel_bet (s : BetsStore) (uid : Nat) (uname : String) (admin : Bool) (bet_id : Nat)
    (wallet_lookup : Nat → Option Wallet) (osmjs : Option OsmjsResult) (now : String) :
    BetsStore × List MultisendCall × CancelOutcome :=
  match get_bet_by_id s bet_id with
  | none => (s, [], .notFound)
  | some bet =>
    let bet_creator_id := bet.creator.getD 0
    if bet_creator_id ≠ uid ∧ ¬ admin then (s, [], .permissionDenied)
    else if bet.is_active = false then
      (s, [], if bet.cancelled then .alreadyCancelled else .alreadyEnded)
    else if bet.participants.isEmpty then
      let bet2 := { bet with
                      is_active := false, cancelled := true,
                      cancelled_at := some now,
                      cancelled_by := some (if admin ∧ bet_creator_id ≠ uid
                        then "Admin: " ++ uname else "Creator: " ++ uname) }
      (save_bet s bet2, [], .cancelledNoParticipants)
    else
      let dr := distribute_refunds_multisend bet wallet_lookup osmjs
      if dr.1.success = false ∧ dr.1.successful_refunds.length = 0 then
        (s, dr.2, .refundFailed dr.1.error)
      else
        let bet2 := { bet with
                        is_active := false, cancelled := true,
                        cancelled_at := some now,
                        cancelled_by := some ("Admin: " ++ uname),
                        refund_results := some dr.1 }
        (save_bet s bet2, dr.2,
          .cancelledWithRefunds dr.1.successful_refunds.length dr.1.failed_refunds.length)

/-- One atomic store mutation as performed by the handlers between
awaits: bet creation, the final block of the bet handler (whose appended
record carries the user id of the caller, as built by
place_bet_with_escrow), settlement, cancellation, and id allocation.
Interleaved concurrent handlers are traces of these steps; the oracle
data each step carries ranges over all possible external responses. -/
inductive Action where
  | create (uid : Nat) (question : String) (options : List String) (amount : ℚ)
      (token : String) (created_at : String) (lock_time : String) : Action
  | finalizeEntry (bet_id : Nat) (uid : Nat) (uname : String) (amount : ℚ)
      (option_index : Nat) (token : String) (tx_hash : String) : Action
  | settle (uid : Nat) (uname : String) (admin : Bool) (bet_id : Nat)
      (winning_option : Int) (wallet_lookup : Nat → Option Wallet)
      (osmjs : Option OsmjsResult) (now : String) : Action
  | cancelAct (uid : Nat) (uname : String) (admin : Bool) (bet_id : Nat)
      (wallet_lookup : Nat → Option Wallet) (osmjs : Option OsmjsResult)
      (now : String) : Action
  | allocId : Action

/-- The store after one atomic step. -/
def step (s : BetsStore) : Action → BetsStore
  | .create uid q opts amt tok ca lt => (makebet s uid q opts amt tok ca lt).1
  | .finalizeEntry bet_id uid uname amt oi tok tx =>
      match (bet_finalize s bet_id uid
          { user_id := uid, username := uname, amount := amt, option := oi,
            token := tok, tx_hash := tx } tx).1 with
      | none => s
      | some m => save_bet s m
  | .settle uid uname admin bet_id w wl o now =>
      (endbet s uid uname admin bet_id w wl o now).1
  | .cancelAct uid uname admin bet_id wl o now =>
      (cancel_bet s uid uname admin bet_id wl o now).1
  | .allocId => (get_next_bet_id (.avail s)).1.store

/-- Stores reachable from the default document by interleavings of the
atomic mutation steps. -/
inductive Reachable : BetsStore → Prop
  | init : Reachable initStore
  | next (s : BetsStore) (a : Action) : Reachable s → Reachable (step s a)

/-- No principal appears twice among the participants of a market. -/
def NodupParticipants (m : Market) : Prop :=
  (m.participants.map Participant.user_id).Nodup

/-- Every stored market has duplicate-free participants. -/
def StoreNodup (s : BetsStore) : Prop :=
  ∀ k m, s.bets k = some m → NodupParticipants m

/-- A resolvable wallet record for concrete scenarios. -/
def exWallet : Wallet := { address := "osmo1addr", mnemonic := "words" }

/-- A successful transfer-service response. -/
def txOk : OsmjsResult := { success := true, tx_hash := "TX9", error := "" }

/-- A store holding the three-participant market exThree under its id 5. -/
def exStoreC1 : BetsStore where
  bets := fun k => if k = 5 then some exThree else none
  counter := 6

/-- A one-participant market whose single wager sits on option B. -/
def exNoWin : Market :=
  { mkOpenMarket 6 "qnw" ["A", "B"] (some 9) 1 "osmo" "t0" "indefinite" with
    participants := [partBob], total_pool := 1 }

/-- A store holding exNoWin under its id 6. -/
def exStoreNW : BetsStore where
  bets := fun k => if k = 6 then some exNoWin else none
  counter := 7

/-- An open two-option market with no participants, id 7. -/
def exBetEmpty : Market :=
  mkOpenMarket 7 "q7" ["A", "B"] (some 9) 1 "osmo" "t0" "indefinite"

/-- A store holding the empty market 7. -/
def exStore7e : BetsStore where
  bets := fun k => if k = 7 then some exBetEmpty else none
  counter := 8

/-- Market 7 after the first participant entered. -/
def exBetAlice : Market :=
  { exBetEmpty with participants := [partAlice], total_pool := 1 }

/-- A store holding market 7 with its first participant. -/
def exStore7a : BetsStore where
  bets := fun k => if k = 7 then some exBetAlice else none
  counter := 8

/-- C5: for every id >= 1 the storage key equals ((id - 1) mod 100) + 1,
the map restricted to 1..100 is a bijection onto itself, it is periodic
with period 100, and the five listed sample values hold. -/
theorem C5_slot_mapping :
    (∀ id : Nat, 1 ≤ id → get_bet_storage_key id = (id - 1) % 100 + 1)
    ∧ Set.BijOn get_bet_storage_key (Set.Icc 1 100) (Set.Icc 1 100)
    ∧ (∀ id : Nat, 1 ≤ id → get_bet_storage_key (id + 100) = get_bet_storage_key id)
    ∧ get_bet_storage_key 1 = 1 ∧ get_bet_storage_key 100 = 100
    ∧ get_bet_storage_key 101 = 1 ∧ get_bet_storage_key 150 = 50
    ∧ get_bet_storage_key 301 = 1 := by
  have hform : ∀ id : Nat, 1 ≤ id → get_bet_storage_key id = (id - 1) % 100 + 1 := by
    intro id hid
    simp only [get_bet_storage_key, MAX_BETS]
    split <;> omega
  have hid100 : ∀ id ∈ Set.Icc 1 100, get_bet_storage_key id = id := by
    intro id hid
    simp only [Set.mem_Icc] at hid
    simp only [get_bet_storage_key, MAX_BETS]
    split <;> omega
  refine ⟨hform, ⟨?_, ?_, ?_⟩, ?_, by decide, by decide, by decide, by decide, by decide⟩
  · intro id hid
    rw [hid100 id hid]
    exact hid
  · intro a ha b hb hab
    rwa [hid100 a ha, hid100 b hb] at hab
  · intro id hid
    exact ⟨id, hid, hid100 id hid⟩
  · intro id hid
    simp only [get_bet_storage_key, MAX_BETS]
    split <;> split <;> omega

/-- Witness for C5 at concrete inputs. -/
theorem C5_slot_mapping_witness :
    get_bet_storage_key 150 = (150 - 1) % 100 + 1
    ∧ get_bet_storage_key (7 + 100) = get_bet_storage_key 7 := by
  exact ⟨C5_slot_mapping.1 150 (by decide), C5_slot_mapping.2.2.1 7 (by decide)⟩

/-- C10: every Market Store write touches only its target.  save_bet
rewrites only the slot of the given record id and writes the counter back
unchanged; update_bet_data leaves the counter and every non-target slot
unchanged and either leaves the target slot alone (failure) or applies
exactly the given updates to its occupant; get_next_bet_id on an
available medium increments only the counter and leaves every slot
unchanged. -/
theorem C10_store_frame :
    (∀ s m k, (save_bet s m).bets k =
        if k = get_bet_storage_key m.id then some m else s.bets k)
    ∧ (∀ s m, (save_bet s m).counter = s.counter)
    ∧ (∀ s bet_id u, (update_bet_data s bet_id u).1.counter = s.counter)
    ∧ (∀ s bet_id u k, k ≠ get_bet_storage_key bet_id →
        (update_bet_data s bet_id u).1.bets k = s.bets k)
    ∧ (∀ s bet_id u,
        (update_bet_data s bet_id u).1.bets (get_bet_storage_key bet_id)
          = s.bets (get_bet_storage_key bet_id)
        ∨ (update_bet_data s bet_id u).1.bets (get_bet_storage_key bet_id)
          = Option.map u (s.bets (get_bet_storage_key bet_id)))
    ∧ (∀ st, (get_next_bet_id (.avail st)).1.store.counter = st.counter + 1)
    ∧ (∀ st k, (get_next_bet_id (.avail st)).1.store.bets k = st.bets k) := by
  refine ⟨fun s m k => rfl, fun s m => rfl, ?_, ?_, ?_, fun st => rfl, fun st k => rfl⟩
  · intro s bet_id u
    unfold update_bet_data
    cases s.bets bet_id <;> simp only
    cases s.bets (get_bet_storage_key bet_id) <;> simp only
  · intro s bet_id u k hk
    unfold update_bet_data
    cases s.bets bet_id <;> simp only
    cases s.bets (get_bet_storage_key bet_id) <;> simp only
    rw [if_neg hk]
  · intro s bet_id u
    unfold update_bet_data
    rcases hraw : s.bets bet_id with _ | m
    · exact Or.inl rfl
    rcases hocc : s.bets (get_bet_storage_key bet_id) with _ | occ
    · exact Or.inl hocc
    · right
      simp

/-- Witness for C10 at a concrete store, record and off-target key. -/
theorem C10_store_frame_witness :
    (update_bet_data initStore 5 id).1.bets 7 = initStore.bets 7 := by
  exact C10_store_frame.2.2.2.1 initStore 5 id 7 (by decide)

/-- C8 counterexample: starting from the default document, a successful
get_next_bet_id call assigns id 1; a later call on a down medium does not
fail with a storage error but returns the plain id 1 again, although the
persisted counter (2) shows id 1 was already assigned. -/
theorem C8_counterexample :
    (get_next_bet_id (Medium.avail initStore)).2 = 1
    ∧ (get_next_bet_id (Medium.down
        (get_next_bet_id (Medium.avail initStore)).1.store)).2 = 1
    ∧ (get_next_bet_id (Medium.down
        (get_next_bet_id (Medium.avail initStore)).1.store)).1.store.counter = 2 := by
  exact ⟨rfl, rfl, rfl⟩

/-- C8 amended: on an available medium get_next_bet_id returns the current
counter value and persists the incremented counter; when the medium is
unavailable it does not raise a storage error: the except handler returns
the fallback id 1 (which may coincide with an already assigned id) and the
document is left unchanged. -/
theorem C8_next_id (st : BetsStore) :
    get_next_bet_id (.avail st) = (.avail { st with counter := st.counter + 1 }, st.counter)
    ∧ get_next_bet_id (.down st) = (.down st, 1) :=
  ⟨rfl, rfl⟩

/-- C4 counterexample: with market 101 occupying slot 1, requesting id 1
does not come back absent: the web lookup returns the slot occupant whose
own id is 101, and the bot lookup returns the same mismatched record
under the raw key 1.  Neither verifies the stored id. -/
theorem C4_counterexample :
    Option.map Market.id (webapp_get_bet_by_id exStoreC4 1) = some 101
    ∧ Option.map Market.id (get_bet_by_id exStoreC4 1) = some 101
    ∧ (101 : Nat) ≠ 1 := by
  refine ⟨?_, ?_, by decide⟩ <;> rfl

/-- C4 amended: get_bet_by_id performs no id verification.  The web
lookup returns absent only when the slot is empty; whenever the slot is
occupied it returns the occupant (with recomputed total pool) whether or
not the occupant id equals the requested id; the bot lookup likewise
returns whatever record sits under the raw id key. -/
theorem C4_get_no_id_check (s : BetsStore) (bet_id : Nat) :
    (s.bets (get_bet_storage_key bet_id) = none → webapp_get_bet_by_id s bet_id = none)
    ∧ (∀ m, s.bets (get_bet_storage_key bet_id) = some m →
        webapp_get_bet_by_id s bet_id
          = some { m with total_pool := m.bet_amount * m.participants.length })
    ∧ (∀ m, s.bets bet_id = some m → get_bet_by_id s bet_id = some m) := by
  refine ⟨?_, ?_, fun m hm => hm⟩
  · intro h
    unfold webapp_get_bet_by_id
    rw [h]
  · intro m hm
    unfold webapp_get_bet_by_id
    rw [hm]

/-- Witness for C4 amended at the concrete wrapped store. -/
theorem C4_get_no_id_check_witness :
    webapp_get_bet_by_id exStoreC4 1
      = some { market101 with
                total_pool := market101.bet_amount * market101.participants.length } := by
  exact (C4_get_no_id_check exStoreC4 1).2.1 market101 (by decide)

/-- The wire rendering moves an amount by at most one smallest unit. -/
theorem round6_close (x : ℚ) : |round6 x - x| ≤ 1 / 1000000 := by
  have h := abs_sub_round (x * (1000000 : ℚ))
  rw [abs_sub_comm] at h
  have heq : round6 x - x = ((round (x * 1000000) : ℚ) - x * 1000000) / 1000000 := by
    unfold round6
    ring
  rw [heq, abs_div]
  rw [show |(1000000 : ℚ)| = 1000000 by norm_num]
  linarith

/-- Evaluation of the payout computation on the concrete three-way
scenario: pool 3, fee 0.15, payout pool 2.85, 1.425 per winner. -/
theorem calculate_payouts_exThree :
    calculate_payouts exThree 0
      = .winnersResult 3 (3 / 20) fee_percentage (57 / 20) [wpAlice, wpCarol] "osmo" := by
  simp only [calculate_payouts, exThree, mkOpenMarket, partAlice, partBob, partCarol,
    List.filter, List.isEmpty, List.length, List.map, wpAlice, wpCarol, fee_percentage,
    round6]
  norm_num

/-- Evaluation of the payout computation on the concrete no-winner
scenario: the recorded fee is 5 percent of the pool, not the pool. -/
theorem calculate_payouts_exNoWin :
    calculate_payouts exNoWin 0 = .noWinners 1 (1 / 20) fee_percentage "osmo" := by
  simp +decide only [calculate_payouts, exNoWin, mkOpenMarket, partBob, List.filter,
    List.isEmpty, List.length, fee_percentage]
  norm_num

/-- C6: whenever calculate_payouts settles a market with winners, the
returned amounts satisfy fee = totalPool * feePercent / 100,
payoutPool = totalPool - fee, every winner is paid payoutPool divided by
the number of winners (with its 6-digit wire rendering), and the fee plus
the number of winners times the wire-rendered per-winner amount equals
the total pool within numWinners times one smallest unit 10^-6; in the
concrete wager-1, 3-participant, 5 percent, 2-winner scenario the fee is
0.15 and the per-winner payout 1.425. -/
theorem C6_fee_conservation :
    (∀ (m : Market) (w : Nat) (tp fee fp pp : ℚ) (ws : List WinnerPayout) (tok : String),
      calculate_payouts m w = .winnersResult tp fee fp pp ws tok →
      fee = tp * fee_percentage / 100
      ∧ pp = tp - fee
      ∧ (∀ x ∈ ws, x.payout = pp / ws.length ∧ x.payout_str = round6 (pp / ws.length))
      ∧ |fee + ws.length * round6 (pp / ws.length) - tp| ≤ ws.length * (1 / 1000000))
    ∧ calculate_payouts exThree 0
        = .winnersResult 3 (3 / 20) fee_percentage (57 / 20) [wpAlice, wpCarol] "osmo" := by
  constructor
  · intro m w tp fee fp pp ws tok h
    simp only [calculate_payouts] at h
    split at h
    · simp at h
    split at h
    · simp at h
    rename_i hp1 hw2
    rw [PayoutResult.winnersResult.injEq] at h
    obtain ⟨htp, hfee, hfp, hpp, hws, htok⟩ := h
    subst htp hfee hpp hws
    refine ⟨rfl, rfl, ?_, ?_⟩
    · intro x hx
      simp only [List.length_map]
      rw [List.mem_map] at hx
      obtain ⟨p, hp, hxeq⟩ := hx
      exact ⟨by rw [← hxeq], by rw [← hxeq]⟩
    · simp only [List.length_map]
      have hne : m.participants.filter (fun p => p.option == w) ≠ [] := by
        intro hnil
        rw [hnil] at hw2
        simp at hw2
      have hlq : ((m.participants.filter (fun p => p.option == w)).length : ℚ) ≠ 0 := by
        simp only [ne_eq, Nat.cast_eq_zero, List.length_eq_zero]
        exact hne
      set n := ((m.participants.filter (fun p => p.option == w)).length : ℚ) with hndef
      set tp := m.bet_amount * (m.participants.length : ℚ) with htpdef
      have hmul : n * ((tp - tp * fee_percentage / 100) / n)
          = tp - tp * fee_percentage / 100 := by
        field_simp
        ring
      have key : tp * fee_percentage / 100
            + n * round6 ((tp - tp * fee_percentage / 100) / n) - tp
          = n * (round6 ((tp - tp * fee_percentage / 100) / n)
            - (tp - tp * fee_percentage / 100) / n) := by
        linear_combination hmul
      have hn0 : (0 : ℚ) ≤ n := by
        rw [hndef]
        positivity
      rw [key, abs_mul, abs_of_nonneg hn0]
      exact mul_le_mul_of_nonneg_left (round6_close _) hn0
  · exact calculate_payouts_exThree

/-- Witness for C6 at the concrete 3-participant scenario. -/
theorem C6_fee_conservation_witness :
    ((3 / 20 : ℚ) = 3 * fee_percentage / 100
    ∧ (57 / 20 : ℚ) = 3 - 3 / 20
    ∧ (∀ x ∈ [wpAlice, wpCarol],
        x.payout = (57 / 20 : ℚ) / (([wpAlice, wpCarol] : List WinnerPayout).length : ℚ)
        ∧ x.payout_str
          = round6 ((57 / 20 : ℚ) / (([wpAlice, wpCarol] : List WinnerPayout).length : ℚ)))
    ∧ |(3 / 20 : ℚ) + (([wpAlice, wpCarol] : List WinnerPayout).length : ℚ)
          * round6 ((57 / 20 : ℚ) / (([wpAlice, wpCarol] : List WinnerPayout).length : ℚ)) - 3|
        ≤ (([wpAlice, wpCarol] : List WinnerPayout).length : ℚ) * (1 / 1000000)) :=
  C6_fee_conservation.1 exThree 0 3 (3 / 20) fee_percentage (57 / 20) [wpAlice, wpCarol]
    "osmo" C6_fee_conservation.2

theorem storeNodup_save (s : BetsStore) (m : Market) (h : StoreNodup s)
    (hm : NodupParticipants m) : StoreNodup (save_bet s m) := by
  intro k x hk
  simp only [save_bet] at hk
  by_cases hkey : k = get_bet_storage_key m.id
  · rw [if_pos hkey] at hk
    exact Option.some.inj hk ▸ hm
  · rw [if_neg hkey] at hk
    exact h k x hk

theorem nodup_append_fresh (m : Market) (record : Participant)
    (h : NodupParticipants m)
    (habs : m.participants.any (fun p => p.user_id == record.user_id) = false) :
    ((m.participants ++ [record]).map Participant.user_id).Nodup := by
  rw [List.map_append, List.nodup_append]
  refine ⟨h, List.nodup_singleton _, ?_⟩
  intro a ha hb
  simp only [List.map_cons, List.map_nil, List.mem_singleton] at hb
  subst hb
  rw [List.mem_map] at ha
  obtain ⟨p, hp, hpe⟩ := ha
  have hall := List.any_eq_false.mp habs p hp
  rw [beq_iff_eq] at hall
  exact hall hpe

theorem bet_finalize_write (s : BetsStore) (bet_id : Nat) (uid : Nat)
    (record : Participant) (tx : String) :
    (bet_finalize s bet_id uid record tx).1 = none
    ∨ ∃ fresh, get_bet_by_id s bet_id = some fresh
        ∧ fresh.participants.any (fun p => p.user_id == uid) = false
        ∧ (bet_finalize s bet_id uid record tx).1
          = some { fresh with
                     participants := fresh.participants ++ [record],
                     total_pool := fresh.total_pool + record.amount } := by
  unfold bet_finalize
  split
  · exact Or.inl rfl
  rename_i fresh hread
  split
  · exact Or.inl rfl
  rename_i habs
  exact Or.inr ⟨fresh, hread, Bool.not_eq_true _ ▸ habs, rfl⟩

theorem endbet_write (s : BetsStore) (uid : Nat) (uname : String) (admin : Bool)
    (bet_id : Nat) (w : Int) (wl : Nat → Option Wallet) (o : Option OsmjsResult)
    (now : String) :
    (endbet s uid uname admin bet_id w wl o now).1 = s
    ∨ ∃ bet bet2, get_bet_by_id s bet_id = some bet
        ∧ (endbet s uid uname admin bet_id w wl o now).1 = save_bet s bet2
        ∧ bet2.participants = bet.participants := by
  unfold endbet
  split
  · exact Or.inl rfl
  rename_i bet hread
  dsimp only
  split
  · exact Or.inl rfl
  split
  · exact Or.inl rfl
  split
  · exact Or.inl rfl
  split
  · exact Or.inr ⟨bet, _, hread, rfl, rfl⟩
  · exact Or.inr ⟨bet, _, hread, rfl, rfl⟩
  · split
    · exact Or.inl rfl
    · exact Or.inr ⟨bet, _, hread, rfl, rfl⟩

theorem cancel_bet_write (s : BetsStore) (uid : Nat) (uname : String) (admin : Bool)
    (bet_id : Nat) (wl : Nat → Option Wallet) (o : Option OsmjsResult) (now : String) :
    (cancel_bet s uid uname admin bet_id wl o now).1 = s
    ∨ ∃ bet bet2, get_bet_by_id s bet_id = some bet
        ∧ (cancel_bet s uid uname admin bet_id wl o now).1 = save_bet s bet2
        ∧ bet2.participants = bet.participants := by
  unfold cancel_bet
  split
  · exact Or.inl rfl
  rename_i bet hread
  dsimp only
  split
  · exact Or.inl rfl
  split
  · exact Or.inl rfl
  split
  · exact Or.inr ⟨bet, _, hread, rfl, rfl⟩
  · split
    · exact Or.inl rfl
    · exact Or.inr ⟨bet, _, hread, rfl, rfl⟩

/-- Every atomic step preserves the no-duplicate invariant. -/
theorem step_preserves_nodup (s : BetsStore) (a : Action) (h : StoreNodup s) :
    StoreNodup (step s a) := by
  cases a with
  | create uid q opts amt tok ca lt =>
      refine storeNodup_save _ _ (fun k m hk => h k m hk) ?_
      simp [NodupParticipants, mkOpenMarket]
  | finalizeEntry bet_id uid uname amt oi tok tx =>
      rcases bet_finalize_write s bet_id uid
          { user_id := uid, username := uname, amount := amt, option := oi,
            token := tok, tx_hash := tx } tx with hnone | ⟨fresh, hread, habs, hsome⟩
      · show StoreNodup (match (bet_finalize s bet_id uid _ tx).1 with
          | none => s
          | some m => save_bet s m)
        rw [hnone]
        exact h
      · show StoreNodup (match (bet_finalize s bet_id uid _ tx).1 with
          | none => s
          | some m => save_bet s m)
        rw [hsome]
        refine storeNodup_save _ _ h ?_
        exact nodup_append_fresh fresh _ (h bet_id fresh hread) habs
  | settle uid uname admin bet_id w wl o now =>
      rcases endbet_write s uid uname admin bet_id w wl o now with
        heq | ⟨bet, bet2, hread, heq, hparts⟩
      · show StoreNodup (endbet s uid uname admin bet_id w wl o now).1
        rw [heq]
        exact h
      · show StoreNodup (endbet s uid uname admin bet_id w wl o now).1
        rw [heq]
        refine storeNodup_save _ _ h ?_
        show (bet2.participants.map Participant.user_id).Nodup
        rw [hparts]
        exact h bet_id bet hread
  | cancelAct uid uname admin bet_id wl o now =>
      rcases cancel_bet_write s uid uname admin bet_id wl o now with
        heq | ⟨bet, bet2, hread, heq, hparts⟩
      · show StoreNodup (cancel_bet s uid uname admin bet_id wl o now).1
        rw [heq]
        exact h
      · show StoreNodup (cancel_bet s uid uname admin bet_id wl o now).1
        rw [heq]
        refine storeNodup_save _ _ h ?_
        show (bet2.participants.map Participant.user_id).Nodup
        rw [hparts]
        exact h bet_id bet hread
  | allocId => exact fun k m hk => h k m hk

/-- Every reachable store satisfies the invariant. -/
theorem reachable_nodup (s : BetsStore) (h : Reachable s) : StoreNodup s := by
  induction h with
  | init =>
      intro k m hk
      simp [initStore] at hk
  | next s a hr ih => exact step_preserves_nodup s a ih

/-- Every non-success result of the payout multisend carries an empty
successful_payouts list, so `not success and zero successes` in the
endbet handler is equivalent to `not success`. -/
theorem distribute_payouts_success_or_empty (pd : PayoutResult)
    (wl : Nat → Option Wallet) (o : Option OsmjsResult) :
    (distribute_payouts_multisend pd wl o).1.success = true
    ∨ (distribute_payouts_multisend pd wl o).1.successful_payouts = [] := by
  unfold distribute_payouts_multisend
  cases pd with
  | noParticipants => exact Or.inr rfl
  | noWinners tp fee fp tok => exact Or.inr rfl
  | winnersResult tp fee fp pp ws tok =>
    dsimp only
    split
    · exact Or.inr rfl
    split
    · exact Or.inr rfl
    split
    · exact Or.inr rfl
    split
    · exact Or.inl rfl
    · exact Or.inr rfl

/-- C1: when settling a market that has at least one winner, a payout
multisend reporting total failure (zero successful payouts) leaves the
store byte-identical: the market stays active (Open), no winning option,
settlement record or distribution result is persisted, and the same
endbet call can be retried against the unchanged store. -/
theorem C1_settlement_total_failure_keeps_open
    (s : BetsStore) (uid : Nat) (uname : String) (admin : Bool) (bet_id : Nat)
    (w : Int) (wl : Nat → Option Wallet) (o : Option OsmjsResult) (now : String)
    (bet : Market) (tp fee fp pp : ℚ) (ws : List WinnerPayout) (tok : String)
    (hread : get_bet_by_id s bet_id = some bet)
    (haut : bet.creator.getD 0 = uid ∨ admin = true)
    (hactive : bet.is_active = true)
    (hopt : ¬ (w - 1 < 0 ∨ (bet.options.length : Int) ≤ w - 1))
    (hcalc : calculate_payouts bet (w - 1).toNat = .winnersResult tp fee fp pp ws tok)
    (hfail : (distribute_payouts_multisend (calculate_payouts bet (w - 1).toNat)
        wl o).1.success = false) :
    (endbet s uid uname admin bet_id w wl o now).1 = s
    ∧ (∃ e, (endbet s uid uname admin bet_id w wl o now).2.2 = .distributionFailed e)
    ∧ get_bet_by_id (endbet s uid uname admin bet_id w wl o now).1 bet_id = some bet
    ∧ bet.is_active = true := by
  have hneg : ¬ (bet.creator.getD 0 ≠ uid ∧ ¬ (admin = true)) := by
    rcases haut with h | h
    · exact fun hc => hc.1 h
    · exact fun hc => hc.2 h
  rw [hcalc] at hfail
  have hempty : (distribute_payouts_multisend (.winnersResult tp fee fp pp ws tok)
      wl o).1.successful_payouts = [] := by
    rcases distribute_payouts_success_or_empty (.winnersResult tp fee fp pp ws tok)
        wl o with h | h
    · rw [h] at hfail
      cases hfail
    · exact h
  have hres : endbet s uid uname admin bet_id w wl o now
      = (s, (distribute_payouts_multisend (.winnersResult tp fee fp pp ws tok) wl o).2,
         .distributionFailed (distribute_payouts_multisend
           (.winnersResult tp fee fp pp ws tok) wl o).1.error) := by
    unfold endbet
    rw [hread]
    dsimp only
    rw [if_neg hneg, if_neg (by rw [hactive]; simp), if_neg hopt, hcalc]
    dsimp only
    rw [if_pos ⟨hfail, by rw [hempty]; rfl⟩]
  rw [hres]
  exact ⟨rfl, ⟨_, rfl⟩, hread, hactive⟩

/-- Witness for C1: settling the concrete three-participant market while
the transfer service is down leaves the store unchanged and the market
active. -/
theorem C1_settlement_total_failure_keeps_open_witness :
    (endbet exStoreC1 9 "boss" false 5 1 (fun _ => some exWallet) none "n1").1 = exStoreC1
    ∧ (∃ e, (endbet exStoreC1 9 "boss" false 5 1 (fun _ => some exWallet) none "n1").2.2
        = .distributionFailed e)
    ∧ get_bet_by_id
        (endbet exStoreC1 9 "boss" false 5 1 (fun _ => some exWallet) none "n1").1 5
      = some exThree
    ∧ exThree.is_active = true := by
  refine C1_settlement_total_failure_keeps_open exStoreC1 9 "boss" false 5 1
      (fun _ => some exWallet) none "n1" exThree 3 (3 / 20) fee_percentage (57 / 20)
      [wpAlice, wpCarol] "osmo" (by decide) (Or.inl (by decide)) (by decide)
      (by decide) ?_ ?_
  · rw [show ((1 : Int) - 1).toNat = 0 from rfl]
    exact calculate_payouts_exThree
  · rw [show ((1 : Int) - 1).toNat = 0 from rfl, calculate_payouts_exThree]
    rfl

/-- Inverting the no-winner return of calculate_payouts: the recorded
fee is feePercent of the pool and the pool is the wager times the
headcount. -/
theorem calculate_payouts_noWinners_inv (m : Market) (w : Nat) (tp fee fp : ℚ)
    (tok : String)
    (h : calculate_payouts m w = .noWinners tp fee fp tok) :
    fee = tp * fee_percentage / 100 ∧ tp = m.bet_amount * m.participants.length := by
  simp only [calculate_payouts] at h
  split at h
  · simp at h
  split at h
  · rw [PayoutResult.noWinners.injEq] at h
    obtain ⟨h1, h2, h3, h4⟩ := h
    subst h1
    exact ⟨h2.symm, rfl⟩
  · simp at h

/-- C7 counterexample: settling the concrete one-participant market with
no winner records a fee of 1/20 (5 percent of the pool 1), not the whole
pool: the claim that the entire pool becomes the fee does not match the
recorded amounts. -/
theorem C7_counterexample :
    calculate_payouts exNoWin 0 = .noWinners 1 (1 / 20) fee_percentage "osmo"
    ∧ (1 / 20 : ℚ) ≠ 1 :=
  ⟨calculate_payouts_exNoWin, by norm_num⟩

/-- C7 amended: settling a market that has participants but no winner on
the winning option records a fee of feePercent of the pool (the rest of
the pool simply stays in escrow with the custodian because zero payout
transfers are attempted) and marks the market settled, persisting the
winning option and the payout record. -/
theorem C7_no_winners_settlement
    (s : BetsStore) (uid : Nat) (uname : String) (admin : Bool) (bet_id : Nat)
    (w : Int) (wl : Nat → Option Wallet) (o : Option OsmjsResult) (now : String)
    (bet : Market) (tp fee fp : ℚ) (tok : String)
    (hread : get_bet_by_id s bet_id = some bet)
    (haut : bet.creator.getD 0 = uid ∨ admin = true)
    (hactive : bet.is_active = true)
    (hopt : ¬ (w - 1 < 0 ∨ (bet.options.length : Int) ≤ w - 1))
    (hcalc : calculate_payouts bet (w - 1).toNat = .noWinners tp fee fp tok) :
    fee = tp * fee_percentage / 100
    ∧ (endbet s uid uname admin bet_id w wl o now).2.1 = []
    ∧ (endbet s uid uname admin bet_id w wl o now).2.2 = .endedNoWinners tp fee
    ∧ ∃ bet2, (endbet s uid uname admin bet_id w wl o now).1 = save_bet s bet2
        ∧ bet2.is_active = false
        ∧ bet2.winning_option = some (w - 1).toNat
        ∧ bet2.payout_data = some (.noWinners tp fee fp tok) := by
  have hneg : ¬ (bet.creator.getD 0 ≠ uid ∧ ¬ (admin = true)) := by
    rcases haut with h | h
    · exact fun hc => hc.1 h
    · exact fun hc => hc.2 h
  have hres : endbet s uid uname admin bet_id w wl o now
      = (save_bet s { bet with
                        is_active := false,
                        winning_option := some (w - 1).toNat,
                        ended_at := some now,
                        ended_by := some (if admin = true ∧ bet.creator.getD 0 ≠ uid
                          then "Admin: " ++ uname else "Creator: " ++ uname),
                        payout_data := some (.noWinners tp fee fp tok) },
         [], .endedNoWinners tp fee) := by
    unfold endbet
    rw [hread]
    dsimp only
    rw [if_neg hneg, if_neg (by rw [hactive]; simp), if_neg hopt, hcalc]
  refine ⟨(calculate_payouts_noWinners_inv bet (w - 1).toNat tp fee fp tok hcalc).1,
    ?_, ?_, ?_⟩
  · rw [hres]
  · rw [hres]
  · exact ⟨_, by rw [hres], rfl, rfl, rfl⟩

/-- Witness for C7 at the concrete no-winner market. -/
theorem C7_no_winners_settlement_witness :
    (1 / 20 : ℚ) = 1 * fee_percentage / 100
    ∧ (endbet exStoreNW 9 "boss" false 6 1 (fun _ => none) none "n7").2.1 = []
    ∧ (endbet exStoreNW 9 "boss" false 6 1 (fun _ => none) none "n7").2.2
        = .endedNoWinners 1 (1 / 20)
    ∧ ∃ bet2, (endbet exStoreNW 9 "boss" false 6 1 (fun _ => none) none "n7").1
          = save_bet exStoreNW bet2
        ∧ bet2.is_active = false
        ∧ bet2.winning_option = some ((1 : Int) - 1).toNat
        ∧ bet2.payout_data = some (.noWinners 1 (1 / 20) fee_percentage "osmo") := by
  refine C7_no_winners_settlement exStoreNW 9 "boss" false 6 1 (fun _ => none) none "n7"
      exNoWin 1 (1 / 20) fee_percentage "osmo" (by decide) (Or.inl (by decide))
      (by decide) (by decide) ?_
  rw [show ((1 : Int) - 1).toNat = 0 from rfl]
  exact calculate_payouts_exNoWin

/-- C9: an authorized cancel of an open market with no participants
immediately persists the cancellation (is_active false, cancelled true,
cancellation record) into the market's slot and dispatches no transfer
call at all. -/
theorem C9_cancel_no_participants
    (s : BetsStore) (uid : Nat) (uname : String) (admin : Bool) (bet_id : Nat)
    (wl : Nat → Option Wallet) (o : Option OsmjsResult) (now : String) (bet : Market)
    (hread : get_bet_by_id s bet_id = some bet)
    (haut : bet.creator.getD 0 = uid ∨ admin = true)
    (hactive : bet.is_active = true)
    (hparts : bet.participants.isEmpty = true) :
    (cancel_bet s uid uname admin bet_id wl o now).2.1 = []
    ∧ (cancel_bet s uid uname admin bet_id wl o now).2.2 = .cancelledNoParticipants
    ∧ ∃ bet2, (cancel_bet s uid uname admin bet_id wl o now).1 = save_bet s bet2
        ∧ bet2.is_active = false ∧ bet2.cancelled = true
        ∧ bet2.cancelled_at = some now
        ∧ (cancel_bet s uid uname admin bet_id wl o now).1.bets
            (get_bet_storage_key bet2.id) = some bet2 := by
  have hneg : ¬ (bet.creator.getD 0 ≠ uid ∧ ¬ (admin = true)) := by
    rcases haut with h | h
    · exact fun hc => hc.1 h
    · exact fun hc => hc.2 h
  have hres : cancel_bet s uid uname admin bet_id wl o now
      = (save_bet s { bet with
                        is_active := false, cancelled := true,
                        cancelled_at := some now,
                        cancelled_by := some (if admin = true ∧ bet.creator.getD 0 ≠ uid
                          then "Admin: " ++ uname else "Creator: " ++ uname) },
         [], .cancelledNoParticipants) := by
    unfold cancel_bet
    rw [hread]
    dsimp only
    rw [if_neg hneg, if_neg (by rw [hactive]; simp), if_pos hparts]
  refine ⟨by rw [hres], by rw [hres], ?_⟩
  refine ⟨_, by rw [hres], rfl, rfl, rfl, ?_⟩
  rw [hres]
  simp [save_bet]

/-- Witness for C9 at the concrete empty market 7. -/
theorem C9_cancel_no_participants_witness :
    (cancel_bet exStore7e 9 "maker" false 7 (fun _ => none) none "n9").2.1 = []
    ∧ (cancel_bet exStore7e 9 "maker" false 7 (fun _ => none) none "n9").2.2
        = .cancelledNoParticipants
    ∧ ∃ bet2, (cancel_bet exStore7e 9 "maker" false 7 (fun _ => none) none "n9").1
          = save_bet exStore7e bet2
        ∧ bet2.is_active = false ∧ bet2.cancelled = true
        ∧ bet2.cancelled_at = some "n9"
        ∧ (cancel_bet exStore7e 9 "maker" false 7 (fun _ => none) none "n9").1.bets
            (get_bet_storage_key bet2.id) = some bet2 :=
  C9_cancel_no_participants exStore7e 9 "maker" false 7 (fun _ => none) none "n9"
    exBetEmpty (by decide) (Or.inl (by decide)) (by decide) (by decide)

/-- A failed send or an unavailable service makes place_bet_with_escrow
return a failure whatever the other inputs are. -/
theorem place_bet_send_fail (uid : Nat) (uname : String) (amt : ℚ) (oi : Nat)
    (tok : String) (wallet : Option Wallet) (v : Bool) (send : Option OsmjsResult)
    (hsend : send = none ∨ ∃ r, send = some r ∧ r.success = false) :
    ∃ e, place_bet_with_escrow uid uname amt oi tok wallet v send = .failure e := by
  cases v with
  | false => exact ⟨_, rfl⟩
  | true =>
    cases wallet with
    | none => exact ⟨_, rfl⟩
    | some wa =>
      rcases hsend with h | ⟨r, h, hrs⟩
      · subst h
        exact ⟨_, rfl⟩
      · subst h
        refine ⟨"Transfer failed: " ++ r.error, ?_⟩
        simp [place_bet_with_escrow, hrs]

/-- With a failed send the bet handler performs no write, whatever the
three observed snapshots are. -/
theorem betCmdAt_send_fail_write_none (s1 s2 s3 : BetsStore) (uid : Nat)
    (uname : String) (bet_id : Nat) (option : Int) (locked : Bool)
    (wallet : Option Wallet) (v : Bool) (send : Option OsmjsResult)
    (hsend : send = none ∨ ∃ r, send = some r ∧ r.success = false) :
    (betCmdAt s1 s2 s3 uid uname bet_id option locked wallet v send).1 = none := by
  unfold betCmdAt
  split
  · rfl
  split
  · rfl
  split
  · rfl
  split
  · rfl
  split
  · rfl
  split
  · rfl
  rename_i current hread2
  split
  · rfl
  split
  · rfl
  split
  · rfl
  rename_i wa
  split
  · rfl
  · rename_i record tx hok
    obtain ⟨e, he⟩ := place_bet_send_fail uid uname current.bet_amount
        (option - 1).toNat current.bet_token (some wa) v send hsend
    rw [he] at hok
    cases hok

/-- C3: a PlaceEntry whose escrow transfer fails or whose transfer
service is unavailable mutates nothing.  The engine returns the transfer
error; the handler leaves the store exactly as it was regardless of
which checks had run (so the same call is safe to retry); and when all
prior checks had passed the reported outcome is the transfer error
itself. -/
theorem C3_transfer_failure_no_mutation :
    (∀ uid uname amt oi tok wa,
        place_bet_with_escrow uid uname amt oi tok (some wa) true none
          = .failure "Transfer failed: OsmoJS service unavailable")
    ∧ (∀ uid uname amt oi tok wa r, r.success = false →
        place_bet_with_escrow uid uname amt oi tok (some wa) true (some r)
          = .failure ("Transfer failed: " ++ r.error))
    ∧ (∀ s uid uname bet_id option locked wallet v send,
        (send = none ∨ ∃ r, send = some r ∧ r.success = false) →
        (betCmd s uid uname bet_id option locked wallet v send).1 = s)
    ∧ (∀ s uid uname bet_id option wa send bet,
        get_bet_by_id s bet_id = some bet →
        bet.is_active = true →
        ¬ (option - 1 < 0 ∨ (bet.options.length : Int) ≤ option - 1) →
        bet.participants.any (fun p => p.user_id == uid) = false →
        (send = none ∨ ∃ r, send = some r ∧ r.success = false) →
        ∃ e, betCmd s uid uname bet_id option false (some wa) true send
          = (s, .transferFailed e)) := by
  refine ⟨fun uid uname amt oi tok wa => rfl, ?_, ?_, ?_⟩
  · intro uid uname amt oi tok wa r hrs
    simp [place_bet_with_escrow, hrs]
  · intro s uid uname bet_id option locked wallet v send hsend
    have hw := betCmdAt_send_fail_write_none s s s uid uname bet_id option locked
        wallet v send hsend
    unfold betCmd
    rcases hp : betCmdAt s s s uid uname bet_id option locked wallet v send with ⟨wr, out⟩
    rw [hp] at hw
    dsimp at hw
    subst hw
    rfl
  · intro s uid uname bet_id option wa send bet hread hactive hopt hdup hsend
    set oi := option - 1 with hoi
    obtain ⟨e, he⟩ := place_bet_send_fail uid uname bet.bet_amount oi.toNat
        bet.bet_token (some wa) true send hsend
    refine ⟨e, ?_⟩
    unfold betCmd betCmdAt
    rw [hread]
    rw [← hoi]
    simp [hactive, hopt, hdup, he]

/-- Witness for C3: placing a wager on the empty market 7 while the
transfer service is unavailable leaves the store unchanged and reports a
transfer error. -/
theorem C3_transfer_failure_no_mutation_witness :
    (betCmd exStore7e 1 "alice" 7 1 false (some exWallet) true none).1 = exStore7e
    ∧ ∃ e, betCmd exStore7e 1 "alice" 7 1 false (some exWallet) true none
        = (exStore7e, .transferFailed e) :=
  ⟨C3_transfer_failure_no_mutation.2.2.1 exStore7e 1 "alice" 7 1 false (some exWallet)
      true none (Or.inl rfl),
   C3_transfer_failure_no_mutation.2.2.2 exStore7e 1 "alice" 7 1 exWallet none
      exBetEmpty (by decide) (by decide) (by decide) (by decide) (Or.inl rfl)⟩

/-- C2: in every store reachable by any interleaving of the atomic
handler steps, no principal appears twice in a market's participants
(the participant count equals the number of distinct user ids); the bet
handler enforces this with three duplicate checks — on the initial read
before initiating the transfer, on the re-read snapshot, and one final
time on the fresh post-transfer snapshot — and when the final check
finds a duplicate it performs no write (no second entry) and reports a
duplicate-prevented outcome that still carries the completed transfer's
hash. -/
theorem C2_no_duplicate_entries :
    (∀ s, Reachable s → ∀ k m, s.bets k = some m →
        m.participants.length = (m.participants.map Participant.user_id).dedup.length)
    ∧ (∀ s1 s2 s3 uid uname bet_id option wallet v send bet,
        get_bet_by_id s1 bet_id = some bet →
        bet.is_active = true →
        ¬ (option - 1 < 0 ∨ (bet.options.length : Int) ≤ option - 1) →
        bet.participants.any (fun p => p.user_id == uid) = true →
        betCmdAt s1 s2 s3 uid uname bet_id option false wallet v send
          = (none, .alreadyBet))
    ∧ (∀ s1 s2 s3 uid uname bet_id option wallet v send bet current,
        get_bet_by_id s1 bet_id = some bet →
        bet.is_active = true →
        ¬ (option - 1 < 0 ∨ (bet.options.length : Int) ≤ option - 1) →
        bet.participants.any (fun p => p.user_id == uid) = false →
        get_bet_by_id s2 bet_id = some current →
        current.is_active = true →
        current.participants.any (fun p => p.user_id == uid) = true →
        betCmdAt s1 s2 s3 uid uname bet_id option false wallet v send
          = (none, .alreadyBetSecond))
    ∧ (∀ s1 s2 s3 uid uname bet_id option wa r bet current fresh,
        get_bet_by_id s1 bet_id = some bet →
        bet.is_active = true →
        ¬ (option - 1 < 0 ∨ (bet.options.length : Int) ≤ option - 1) →
        bet.participants.any (fun p => p.user_id == uid) = false →
        get_bet_by_id s2 bet_id = some current →
        current.is_active = true →
        current.participants.any (fun p => p.user_id == uid) = false →
        r.success = true →
        get_bet_by_id s3 bet_id = some fresh →
        fresh.participants.any (fun p => p.user_id == uid) = true →
        betCmdAt s1 s2 s3 uid uname bet_id option false (some wa) true (some r)
          = (none, .duplicatePrevented r.tx_hash)) := by
  refine ⟨?_, ?_, ?_, ?_⟩
  · intro s hs k m hk
    have hn := reachable_nodup s hs k m hk
    rw [List.dedup_eq_self.mpr hn, List.length_map]
  · intro s1 s2 s3 uid uname bet_id option wallet v send bet hread hactive hopt hdup
    set oi := option - 1 with hoi
    unfold betCmdAt
    rw [hread, ← hoi]
    simp [hactive, hopt, hdup]
  · intro s1 s2 s3 uid uname bet_id option wallet v send bet current hread hactive hopt
      hdup hread2 hactive2 hdup2
    set oi := option - 1 with hoi
    unfold betCmdAt
    rw [hread, ← hoi]
    simp [hactive, hopt, hdup, hread2, hactive2, hdup2]
  · intro s1 s2 s3 uid uname bet_id option wa r bet current fresh hread hactive hopt
      hdup hread2 hactive2 hdup2 hr hread3 hdup3
    set oi := option - 1 with hoi
    unfold betCmdAt
    rw [hread, ← hoi]
    simp [hactive, hopt, hdup, hread2, hactive2, hdup2, hr, place_bet_with_escrow,
      bet_finalize, hread3, hdup3]

/-- Witness for C2: the invariant holds in the initial store, and on the
concrete market 7 a transfer that completed while another entry of the
same principal appeared is rejected by the final check with its hash
surfaced. -/
theorem C2_no_duplicate_entries_witness :
    (∀ k m, initStore.bets k = some m →
        m.participants.length = (m.participants.map Participant.user_id).dedup.length)
    ∧ betCmdAt exStore7e exStore7e exStore7a 1 "alice" 7 1 false (some exWallet) true
        (some txOk) = (none, .duplicatePrevented txOk.tx_hash) :=
  ⟨C2_no_duplicate_entries.1 initStore Reachable.init,
   C2_no_duplicate_entries.2.2.2 exStore7e exStore7e exStore7a 1 "alice" 7 1 exWallet
     txOk exBetEmpty exBetEmpty exBetAlice (by decide) (by decide) (by decide)
     (by decide) (by decide) (by decide) (by decide) (by decide) (by decide) (by decide)⟩

end MadBet

